import Mathlib

/-!
Verification of the pyclef repository: the CLEF field classifier
(`ClefParser.parse_event` and `ClefParser.iter_events` in `pyclef/parser.py`)
and the filter-builder evaluation engine (`ClefEventFilterBuilder` in
`pyclef/filter.py`), shallowly embedded in Lean.

Python JSON-decoded values are modelled by the inductive `Json` (JSON floats
are not needed by any property considered here and are omitted).  Python
dictionaries are modelled as insertion-ordered association lists with
insert-or-replace assignment, matching CPython dict semantics.  A compiled
regular-expression pattern is modelled by its `search` predicate
(`String → Bool`, "does the pattern match anywhere in the string"), since the
`re` module is an external collaborator of the repository.
-/

set_option autoImplicit false

namespace PyClef

/-- A JSON-decoded Python value (`json.loads` output). -/
inductive Json where
  | null
  | bool (b : Bool)
  | int (n : Int)
  | str (s : String)
  | arr (elems : List Json)
  | obj (fields : List (String × Json))

mutual
/-- Decidable equality on `Json` (hand-rolled: the nested inductive defeats
the automatic derivation). -/
def Json.decEq : (a b : Json) → Decidable (a = b)
  | .null, .null => isTrue rfl
  | .bool a, .bool b =>
    if h : a = b then isTrue (by rw [h])
    else isFalse (by intro he; injection he; contradiction)
  | .int a, .int b =>
    if h : a = b then isTrue (by rw [h])
    else isFalse (by intro he; injection he; contradiction)
  | .str a, .str b =>
    if h : a = b then isTrue (by rw [h])
    else isFalse (by intro he; injection he; contradiction)
  | .arr a, .arr b =>
    match Json.decEqElems a b with
    | isTrue h => isTrue (by rw [h])
    | isFalse h => isFalse (by intro he; injection he; contradiction)
  | .obj a, .obj b =>
    match Json.decEqFields a b with
    | isTrue h => isTrue (by rw [h])
    | isFalse h => isFalse (by intro he; injection he; contradiction)
  | .null, .bool _ | .null, .int _ | .null, .str _ | .null, .arr _
  | .null, .obj _ | .bool _, .null | .bool _, .int _ | .bool _, .str _
  | .bool _, .arr _ | .bool _, .obj _ | .int _, .null | .int _, .bool _
  | .int _, .str _ | .int _, .arr _ | .int _, .obj _ | .str _, .null
  | .str _, .bool _ | .str _, .int _ | .str _, .arr _ | .str _, .obj _
  | .arr _, .null | .arr _, .bool _ | .arr _, .int _ | .arr _, .str _
  | .arr _, .obj _ | .obj _, .null | .obj _, .bool _ | .obj _, .int _
  | .obj _, .str _ | .obj _, .arr _ => isFalse (by intro he; exact Json.noConfusion he)

/-- Decidable equality on lists of `Json`. -/
def Json.decEqElems : (a b : List Json) → Decidable (a = b)
  | [], [] => isTrue rfl
  | [], _ :: _ => isFalse (by intro he; exact List.noConfusion he)
  | _ :: _, [] => isFalse (by intro he; exact List.noConfusion he)
  | x :: xs, y :: ys =>
    match Json.decEq x y, Json.decEqElems xs ys with
    | isTrue h1, isTrue h2 => isTrue (by rw [h1, h2])
    | isFalse h1, _ => isFalse (by intro he; injection he; contradiction)
    | _, isFalse h2 => isFalse (by intro he; injection he; contradiction)

/-- Decidable equality on lists of `(String × Json)` pairs. -/
def Json.decEqFields : (a b : List (String × Json)) → Decidable (a = b)
  | [], [] => isTrue rfl
  | [], _ :: _ => isFalse (by intro he; exact List.noConfusion he)
  | _ :: _, [] => isFalse (by intro he; exact List.noConfusion he)
  | (k, v) :: xs, (k2, v2) :: ys =>
    if h0 : k = k2 then
      match Json.decEq v v2, Json.decEqFields xs ys with
      | isTrue h1, isTrue h2 => isTrue (by rw [h0, h1, h2])
      | isFalse h1, _ =>
        isFalse (by intro he; injection he with hp _; injection hp; contradiction)
      | _, isFalse h2 => isFalse (by intro he; injection he; contradiction)
    else isFalse (by intro he; injection he with hp _; injection hp; contradiction)
end

instance : DecidableEq Json := Json.decEq

instance {ε α : Type} [DecidableEq ε] [DecidableEq α] : DecidableEq (Except ε α) :=
  fun a b =>
    match a, b with
    | .ok x, .ok y =>
      if h : x = y then isTrue (by rw [h])
      else isFalse (by intro he; injection he; contradiction)
    | .error x, .error y =>
      if h : x = y then isTrue (by rw [h])
      else isFalse (by intro he; injection he; contradiction)
    | .ok _, .error _ => isFalse (by intro he; exact Except.noConfusion he)
    | .error _, .ok _ => isFalse (by intro he; exact Except.noConfusion he)

/-- Python truthiness (`bool(x)`) of a JSON-decoded value. -/
def pyTruthy : Json → Bool
  | .null => false
  | .bool b => b
  | .int n => n != 0
  | .str s => s != ""
  | .arr xs => !xs.isEmpty
  | .obj fs => !fs.isEmpty

mutual
/-- Python `repr()` of a JSON-decoded value (string escaping simplified to
always-single-quotes; no property below depends on quote selection). -/
def pyRepr : Json → String
  | .null => "None"
  | .bool b => if b then "True" else "False"
  | .int n => toString n
  | .str s => "'" ++ s ++ "'"
  | .arr xs => "[" ++ pyReprElems xs ++ "]"
  | .obj fs => "\x7b" ++ pyReprFields fs ++ "\x7d"

/-- Comma-separated `repr`s of list elements, as Python renders a list body. -/
def pyReprElems : List Json → String
  | [] => ""
  | [x] => pyRepr x
  | x :: y :: rest => pyRepr x ++ ", " ++ pyReprElems (y :: rest)

/-- Comma-separated `'key': repr(value)` pairs, as Python renders a dict body. -/
def pyReprFields : List (String × Json) → String
  | [] => ""
  | [(k, v)] => "'" ++ k ++ "': " ++ pyRepr v
  | (k, v) :: p :: rest => "'" ++ k ++ "': " ++ pyRepr v ++ ", " ++ pyReprFields (p :: rest)
end

/-- Python `str()` of a JSON-decoded value: identity on strings, `repr`
otherwise (matching CPython for None, bool, int, list, dict). -/
def pyStr : Json → String
  | .str s => s
  | v => pyRepr v

mutual
/-- Python `==` on JSON-decoded values: structural, with `bool` comparing
equal to the corresponding `int` (CPython's `True == 1`), and dicts compared
order-insensitively (same size and every entry of the left found with an
equal value on the right — dict equality for well-formed decoded objects,
whose keys are unique). -/
def pyEq : Json → Json → Bool
  | .null, .null => true
  | .bool a, .bool b => a == b
  | .bool a, .int n => (if a then (1 : Int) else 0) == n
  | .int n, .bool a => n == (if a then (1 : Int) else 0)
  | .int a, .int b => a == b
  | .str a, .str b => a == b
  | .arr a, .arr b => pyEqElems a b
  | .obj a, .obj b => a.length == b.length && pyEqSub a b
  | _, _ => false

/-- Elementwise Python `==` on two lists (Python list equality). -/
def pyEqElems : List Json → List Json → Bool
  | [], [] => true
  | a :: as', b :: bs' => pyEq a b && pyEqElems as' bs'
  | _, _ => false

/-- Every entry of the first dict is present in the second with a
Python-`==` value. -/
def pyEqSub : List (String × Json) → List (String × Json) → Bool
  | [], _ => true
  | (k, v) :: rest, b => pyFindEq k v b && pyEqSub rest b

/-- Look up key `k` in a dict and compare the found value with `v`
by Python `==`; `false` when the key is missing. -/
def pyFindEq : String → Json → List (String × Json) → Bool
  | _, _, [] => false
  | k, v, (k2, w) :: rest => if k == k2 then pyEq v w else pyFindEq k v rest
end

/-- CPython dict assignment `d[k] = v`: replace the value in place if the key
exists (keeping its position), otherwise append the new entry. -/
def dictInsert (m : List (String × Json)) (k : String) (v : Json) :
    List (String × Json) :=
  if (m.lookup k).isSome then
    m.map (fun kv => if kv.1 = k then (kv.1, v) else kv)
  else
    m ++ [(k, v)]

/-- `ClefParser.REIFIED_KEYS`: the wire keys of the seven standard CLEF
fields, from the `ClefField` enum (`pyclef/fields.py`). -/
def REIFIED_KEYS : List String := ["@t", "@m", "@mt", "@l", "@x", "@i", "@r"]

/-- `k.startswith("@@")` for the unescape rule in `parse_event`. -/
def startsWithAtAt (k : String) : Bool :=
  match k.data with
  | '@' :: '@' :: _ => true
  | _ => false

/-- `k[1:]`: the string with exactly its first character dropped. -/
def dropFirstChar (k : String) : String :=
  ⟨k.data.drop 1⟩

/-- The name under which a non-standard source key is stored in the user
fields: the `@@` unescape drops exactly the first character, all other keys
are stored unchanged. -/
def storedName (k : String) : String :=
  if startsWithAtAt k then dropFirstChar k else k

/-- A parsed CLEF event (`ClefEvent` dataclass): the two key/value maps
produced by the classifier. -/
structure ClefEvent where
  reified : List (String × Json)
  user : List (String × Json)
deriving DecidableEq

/-- One iteration of the `parse_event` loop body: route the entry `(k, v)`
into `reified` (key unchanged) when `k` is a standard wire key, else into
`user` under the `@@`-unescaped name. -/
def parseStep (acc : ClefEvent) (k : String) (v : Json) : ClefEvent :=
  if REIFIED_KEYS.contains k then
    { acc with reified := dictInsert acc.reified k v }
  else if startsWithAtAt k then
    { acc with user := dictInsert acc.user (dropFirstChar k) v }
  else
    { acc with user := dictInsert acc.user k v }

/-- The `parse_event` loop over the decoded object's entries,
in iteration order, starting from the accumulated maps `acc`. -/
def parseEventLoop (acc : ClefEvent) : List (String × Json) → ClefEvent
  | [] => acc
  | (k, v) :: rest => parseEventLoop (parseStep acc k v) rest

/-- `ClefParser.parse_event`: partition a decoded JSON object's entries into
the reified (standard) and user field maps, applying the `@@` unescape. -/
def parse_event (event : List (String × Json)) : ClefEvent :=
  parseEventLoop ⟨[], []⟩ event

/-- A Python `datetime` as produced by `datetime.fromisoformat`: wall-clock
microseconds on the proleptic Gregorian calendar, plus an optional UTC offset
in microseconds (`none` models a naive datetime without timezone info). -/
structure PyDateTime where
  wall : Int
  utcOffset : Option Int
deriving DecidableEq

/-- Python comparison of two datetimes: two naive values compare by wall
clock, two aware values compare by absolute instant, and a mixed
naive/aware comparison raises `TypeError` (modelled as `none`). -/
def pyDTCompare (a b : PyDateTime) : Option Ordering :=
  match a.utcOffset, b.utcOffset with
  | none, none => some (compare a.wall b.wall)
  | some x, some y => some (compare (a.wall - x) (b.wall - y))
  | _, _ => none

/-- Consume exactly `n` decimal digits, returning their value and the rest. -/
def splitDigitsAux : Nat → Nat → List Char → Option (Nat × List Char)
  | 0, acc, cs => some (acc, cs)
  | _ + 1, _, [] => none
  | n + 1, acc, c :: cs =>
    if c.isDigit then splitDigitsAux n (acc * 10 + (c.toNat - '0'.toNat)) cs
    else none

/-- Read exactly `n` decimal digits from the front of `cs`. -/
def splitDigits (n : Nat) (cs : List Char) : Option (Nat × List Char) :=
  splitDigitsAux n 0 cs

/-- Numeric value of a digit string. -/
def digitsVal (ds : List Char) : Nat :=
  ds.foldl (fun a c => a * 10 + (c.toNat - '0'.toNat)) 0

/-- Gregorian leap year test. -/
def isLeapYear (y : Nat) : Bool :=
  y % 4 == 0 && (y % 100 != 0 || y % 400 == 0)

/-- Number of days in a month of a given year. -/
def daysInMonth (y m : Nat) : Nat :=
  if m = 2 then (if isLeapYear y then 29 else 28)
  else if m = 4 || m = 6 || m = 9 || m = 11 then 30
  else 31

/-- Days in year `y` strictly before month `m` (1-based). -/
def daysBeforeMonth (y m : Nat) : Nat :=
  (List.range (m - 1)).foldl (fun acc i => acc + daysInMonth y (i + 1)) 0

/-- Proleptic Gregorian day count of a date, with `0001-01-01` as day 0
(the shape of CPython's `date.toordinal`, shifted by one). -/
def dateOrdinal (y m d : Nat) : Nat :=
  365 * (y - 1) + (y - 1) / 4 - (y - 1) / 100 + (y - 1) / 400
    + daysBeforeMonth y m + (d - 1)

/-- Parse `HH:MM[:SS[.ffffff]]` (1 to 6 fractional digits) into microseconds
within the day, returning the unconsumed rest. -/
def parseHMS (cs : List Char) : Option (Nat × List Char) := do
  let (h, cs) ← splitDigits 2 cs
  if h > 23 then none else
  match cs with
  | ':' :: cs => do
    let (mi, cs) ← splitDigits 2 cs
    if mi > 59 then none else
    match cs with
    | ':' :: cs => do
      let (s, cs) ← splitDigits 2 cs
      if s > 59 then none else
      match cs with
      | '.' :: cs =>
        let ds := cs.takeWhile Char.isDigit
        let rest := cs.dropWhile Char.isDigit
        if ds.length < 1 || ds.length > 6 then none
        else some (((h * 60 + mi) * 60 + s) * 1000000
                     + digitsVal ds * 10 ^ (6 - ds.length), rest)
      | _ => some (((h * 60 + mi) * 60 + s) * 1000000, cs)
    | _ => some ((h * 60 + mi) * 60000000, cs)
  | _ => none

/-- Parse an optional trailing UTC offset `±HH:MM`; `some none` when the
input is exhausted (naive datetime), `none` on malformed input. -/
def parseOffsetPart (cs : List Char) : Option (Option Int) :=
  match cs with
  | [] => some none
  | sign :: cs =>
    if sign = '+' || sign = '-' then
      match splitDigits 2 cs with
      | some (oh, ':' :: cs) =>
        match splitDigits 2 cs with
        | some (om, []) =>
          if oh > 23 || om > 59 then none
          else
            let micros : Int := ((oh * 3600 + om * 60 : Nat) : Int) * 1000000
            some (some (if sign = '-' then -micros else micros))
        | _ => none
      | _ => none
    else none

/-- Model of `datetime.fromisoformat` on the extended ISO-8601 grammar
`YYYY-MM-DD[<sep>HH:MM[:SS[.ffffff]][±HH:MM]]` with calendar validation
(the grammar fragment the repository's timestamps exercise). -/
def fromisoformat (s : String) : Option PyDateTime := do
  let cs := s.data
  let (y, cs) ← splitDigits 4 cs
  if y = 0 then none else
  match cs with
  | '-' :: cs => do
    let (mo, cs) ← splitDigits 2 cs
    if mo < 1 || mo > 12 then none else
    match cs with
    | '-' :: cs => do
      let (d, cs) ← splitDigits 2 cs
      if d < 1 || d > daysInMonth y mo then none else
      match cs with
      | [] => some ⟨(dateOrdinal y mo d : Int) * 86400000000, none⟩
      | _sep :: cs => do
        let (tod, cs) ← parseHMS cs
        let off ← parseOffsetPart cs
        some ⟨(dateOrdinal y mo d : Int) * 86400000000 + (tod : Int), off⟩
    | _ => none
  | _ => none

/-- `t.replace('Z', '+00:00')`: CPython `str.replace` rewrites every
occurrence of `'Z'`. -/
def replaceZ (s : String) : String :=
  ⟨go s.data⟩
where
  go : List Char → List Char
    | [] => []
    | 'Z' :: rest => '+' :: '0' :: '0' :: ':' :: '0' :: '0' :: go rest
    | c :: rest => c :: go rest

/-- `ClefEventFilterBuilder._parse_time` (pyclef/filter.py): substitute the
`Z` suffix, call `fromisoformat`, and re-raise a parse failure as
`ValueError("Invalid timestamp format: ...")` carrying the cause. -/
def parse_time (t : String) : Except String PyDateTime :=
  match fromisoformat (replaceZ t) with
  | some dt => .ok dt
  | none =>
    .error ("Invalid timestamp format: Invalid isoformat string: '"
              ++ replaceZ t ++ "'")

/-- Errors raised by the builder's configuration (setter) calls:
`ValueError` for an invalid argument, `ClefInvalidTimestampError` carrying
the offending string and the parse cause. -/
inductive BuilderError where
  | valueError (msg : String)
  | invalidTimestamp (timestamp : String) (cause : String)
deriving DecidableEq

/-- The criteria state of a `ClefEventFilterBuilder`: one optional slot per
criterion, all `None` on construction.  A compiled regex pattern is
represented by its search predicate. -/
structure FilterConfig where
  startTime : Option String := none
  endTime : Option String := none
  level : Option String := none
  msgPattern : Option (String → Bool) := none
  msgTemplatePattern : Option (String → Bool) := none
  userFields : Option (List (String × Json)) := none
  eventid : Option Json := none
  exceptionPattern : Option (String → Bool) := none
  renderingsPattern : Option (String → Bool) := none

/-- The builder state right after `__init__`: no criterion configured. -/
def initialConfig : FilterConfig := {}

/-- `ClefEventFilterBuilder.start_time` (pyclef/filter.py): reject an empty
value with `ValueError`, validate the timestamp by parsing it (re-raising as
`ClefInvalidTimestampError`), then store the string. -/
def set_start_time (cfg : FilterConfig) (value : String) :
    Except BuilderError FilterConfig :=
  if value = "" then .error (.valueError "start_time cannot be None or empty")
  else
    match parse_time value with
    | .error e => .error (.invalidTimestamp value e)
    | .ok _ => .ok { cfg with startTime := some value }

/-- `ClefEventFilterBuilder.end_time` (pyclef/filter.py): same validation as
`start_time`. -/
def set_end_time (cfg : FilterConfig) (value : String) :
    Except BuilderError FilterConfig :=
  if value = "" then .error (.valueError "end_time cannot be None or empty")
  else
    match parse_time value with
    | .error e => .error (.invalidTimestamp value e)
    | .ok _ => .ok { cfg with endTime := some value }

/-- Per-event evaluation outcome: included, excluded by a criterion, or
skipped (excluded with the skip counter incremented and a warning). -/
inductive Outcome where
  | pass
  | excl
  | skip
deriving DecidableEq

/-- Python truthiness of an `Optional[str]` criterion slot. -/
def isSetStr : Option String → Bool
  | none => false
  | some s => s != ""

/-- One time bound inside the per-event loop: `if self._start_time: ... if
event_dt < start_dt: continue` (and symmetrically `>` for the end bound).
A bound-string parse failure raises inside the inner `try` (skip); a mixed
naive/aware comparison raises `TypeError`, caught by the per-event handler
(also a skip). -/
def checkBound (bound : Option String) (edt : PyDateTime) (badOrd : Ordering)
    (next : Outcome) : Outcome :=
  match bound with
  | none => next
  | some s =>
    if s = "" then next
    else
      match parse_time s with
      | .error _ => .skip
      | .ok bdt =>
        match pyDTCompare edt bdt with
        | none => .skip
        | some o => if o = badOrd then .excl else next

/-- Time-based filtering block of `ClefEventFilterBuilder.filter`, as a
function of the two configured bound strings: runs only when a bound is
set; a falsy/missing `@t` excludes silently; an unparsable event timestamp
(including a non-string value) is a skip. -/
def checkTimeOpt (startB endB : Option String) (e : ClefEvent) : Outcome :=
  if isSetStr startB || isSetStr endB then
    match e.reified.lookup "@t" with
    | none => .excl
    | some v =>
      if pyTruthy v = false then .excl
      else
        match v with
        | .str ts =>
          match parse_time ts with
          | .error _ => .skip
          | .ok edt =>
            checkBound startB edt .lt (checkBound endB edt .gt .pass)
        | _ => .skip
  else .pass

/-- Time-based filtering block of `filter`. -/
def checkTime (cfg : FilterConfig) (e : ClefEvent) : Outcome :=
  checkTimeOpt cfg.startTime cfg.endTime e

/-- Level filtering block as a function of the configured level:
`if self._level and event.reified.get('@l') != self._level: continue`
(a missing level compares unequal). -/
def checkLevelOpt (level : Option String) (e : ClefEvent) : Outcome :=
  match level with
  | none => .pass
  | some lvl =>
    if lvl = "" then .pass
    else
      match e.reified.lookup "@l" with
      | some v => if pyEq v (.str lvl) then .pass else .excl
      | none => .excl

/-- Level filtering block of `filter`. -/
def checkLevel (cfg : FilterConfig) (e : ClefEvent) : Outcome :=
  checkLevelOpt cfg.level e

/-- The string a pattern criterion is matched against: the field's value
defaulted to `''` when missing, passed through `str()`. -/
def fieldStr (e : ClefEvent) (key : String) : String :=
  match e.reified.lookup key with
  | some v => pyStr v
  | none => ""

/-- A pattern block: pass iff the compiled pattern's `search` finds a match
in the given string. -/
def checkSearch (pat : Option (String → Bool)) (s : String) : Outcome :=
  match pat with
  | none => .pass
  | some p => if p s then .pass else .excl

/-- Message pattern block of `filter`. -/
def checkMsg (cfg : FilterConfig) (e : ClefEvent) : Outcome :=
  checkSearch cfg.msgPattern (fieldStr e "@m")

/-- Message-template pattern block of `filter`. -/
def checkTemplate (cfg : FilterConfig) (e : ClefEvent) : Outcome :=
  checkSearch cfg.msgTemplatePattern (fieldStr e "@mt")

/-- Exception pattern block of `filter`. -/
def checkException (cfg : FilterConfig) (e : ClefEvent) : Outcome :=
  checkSearch cfg.exceptionPattern (fieldStr e "@x")

/-- Renderings pattern block of `filter`. -/
def checkRenderings (cfg : FilterConfig) (e : ClefEvent) : Outcome :=
  checkSearch cfg.renderingsPattern (fieldStr e "@r")

/-- User-fields block: `if self._user_fields:` (an empty dict is falsy and
filters nothing), then every criteria entry must be present in the event's
user fields with a Python-`==` value (`event.user.get(k) == v`, a missing
key yielding `None`). -/
def checkUserFieldsOpt (uf : Option (List (String × Json))) (e : ClefEvent) : Outcome :=
  match uf with
  | none => .pass
  | some m =>
    if m.isEmpty then .pass
    else if m.all (fun kv => pyEq ((e.user.lookup kv.1).getD .null) kv.2) then .pass
    else .excl

/-- User-fields block of `filter`. -/
def checkUserFields (cfg : FilterConfig) (e : ClefEvent) : Outcome :=
  checkUserFieldsOpt cfg.userFields e

/-- Event-id block: `if self._eventid is not None: ...` with Python `!=`
against the event's `@i` field. -/
def checkEventIdOpt (evid : Option Json) (e : ClefEvent) : Outcome :=
  match evid with
  | none => .pass
  | some v =>
    if pyEq ((e.reified.lookup "@i").getD .null) v then .pass else .excl

/-- Event-id block of `filter`. -/
def checkEventId (cfg : FilterConfig) (e : ClefEvent) : Outcome :=
  checkEventIdOpt cfg.eventid e

/-- Short-circuit sequencing of criterion blocks: the first non-pass outcome
decides (`continue` in the source loop). -/
def seqOutcome (a b : Outcome) : Outcome :=
  match a with
  | .pass => b
  | x => x

/-- Evaluation of all criteria against one event, in the source order of the
blocks in `ClefEventFilterBuilder.filter`. -/
def evalEvent (cfg : FilterConfig) (e : ClefEvent) : Outcome :=
  seqOutcome (checkTime cfg e) (seqOutcome (checkLevel cfg e)
    (seqOutcome (checkMsg cfg e) (seqOutcome (checkTemplate cfg e)
      (seqOutcome (checkException cfg e) (seqOutcome (checkRenderings cfg e)
        (seqOutcome (checkUserFields cfg e) (checkEventId cfg e)))))))

/-- Errors raised by `ClefEventFilterBuilder.filter` itself
(`ClefFilterError`, carrying its message). -/
inductive FilterError where
  | clefFilterError (msg : String)
deriving DecidableEq

/-- The time-range validation at the top of `filter`: when both bounds are
truthy, parse both and reject an inverted range with `ClefFilterError`
before any event is touched.  A parse failure or a `TypeError` from
comparing a naive with an aware bound propagates to the outer handler and
is wrapped as `ClefFilterError("Filter operation failed: ...")`. -/
def rangeCheck (cfg : FilterConfig) : Except FilterError Unit :=
  match cfg.startTime, cfg.endTime with
  | some s, some t =>
    if s = "" || t = "" then .ok ()
    else
      match parse_time s, parse_time t with
      | .ok ds, .ok dt =>
        match pyDTCompare ds dt with
        | some .gt =>
          .error (.clefFilterError
            ("start_time (" ++ s ++ ") is after end_time (" ++ t ++ ")"))
        | some _ => .ok ()
        | none => .error (.clefFilterError "Filter operation failed: TypeError")
      | .error e, _ => .error (.clefFilterError ("Filter operation failed: " ++ e))
      | _, .error e => .error (.clefFilterError ("Filter operation failed: " ++ e))
  | _, _ => .ok ()

/-- The per-event loop of `filter`: append passing events in source order;
a skip increments the skip counter (the warning side channel) and excludes
only that event. -/
def filterLoop (cfg : FilterConfig) : List ClefEvent → List ClefEvent × Nat
  | [] => ([], 0)
  | e :: rest =>
    let r := filterLoop cfg rest
    match evalEvent cfg e with
    | .pass => (e :: r.1, r.2)
    | .excl => r
    | .skip => (r.1, r.2 + 1)

/-- `ClefEventFilterBuilder.filter` (pyclef/filter.py): validate the time
range, then evaluate every event, returning the new collection together
with the skip counter (the aggregate-warning side channel). -/
def filterExec (cfg : FilterConfig) (events : List ClefEvent) :
    Except FilterError (List ClefEvent × Nat) :=
  match rangeCheck cfg with
  | .error e => .error e
  | .ok _ => .ok (filterLoop cfg events)

/-- The exception values of pyclef/parser.py's error hierarchy, each
carrying the data its `__init__` stores. -/
inductive ClefError where
  | clefParseError (msg : String)
  | clefJSONDecodeError (lineNum : Nat) (lineContent : String) (cause : String)
deriving DecidableEq

/-- The message `ClefJSONDecodeError.__init__` (pyclef/exceptions.py)
formats: the 1-indexed line number, the cause, and the line content
truncated to its first 100 characters with an ellipsis marker. -/
def clefJSONDecodeErrorMessage (lineNum : Nat) (content : String)
    (cause : String) : String :=
  "Invalid JSON on line " ++ toString lineNum ++ ": " ++ cause
    ++ "\nContent: " ++ (⟨content.data.take 100⟩ : String)
    ++ (if content.data.length > 100 then "..." else "")

/-- Python `str.strip()`: remove leading and trailing whitespace. -/
def pyStrip (s : String) : String :=
  ⟨((s.data.dropWhile Char.isWhitespace).reverse.dropWhile
      Char.isWhitespace).reverse⟩

/-- The line loop of `ClefParser.iter_events` (pyclef/parser.py), over the
already-read physical lines of the file, numbered from `n`: strip each
line, skip blank lines silently, decode the rest (via the `json.loads`
collaborator `decode`), and on a decode failure raise a plain
`ClefParseError` whose message holds only the line number and the decode
cause. -/
def iterEventsLoop (decode : String → Except String (List (String × Json)))
    (n : Nat) : List String → Except ClefError (List ClefEvent)
  | [] => .ok []
  | l :: rest =>
    let line := pyStrip l
    if line = "" then iterEventsLoop decode (n + 1) rest
    else
      match decode line with
      | .error e =>
        .error (.clefParseError ("Invalid JSON on line " ++ toString n ++ ": " ++ e))
      | .ok obj =>
        match iterEventsLoop decode (n + 1) rest with
        | .error err => .error err
        | .ok evts => .ok (parse_event obj :: evts)

/-- `ClefParser.iter_events` on a file's physical lines: 1-indexed
enumeration, as `enumerate(f, 1)` counts every physical line including
blank ones.  `ClefParser.parse` drains the same sequence, so it surfaces
the identical error value. -/
def iter_events (decode : String → Except String (List (String × Json)))
    (lines : List String) : Except ClefError (List ClefEvent) :=
  iterEventsLoop decode 1 lines

/-- Left-biased merge of two optional criterion slots. -/
def mergeOpt {α : Type} : Option α → Option α → Option α
  | some x, _ => some x
  | none, y => y

/-- The builder state obtained by applying the criteria of `a` and of `b`
to a fresh builder (meaningful when their configured slots are disjoint). -/
def mergeCfg (a b : FilterConfig) : FilterConfig where
  startTime := mergeOpt a.startTime b.startTime
  endTime := mergeOpt a.endTime b.endTime
  level := mergeOpt a.level b.level
  msgPattern := mergeOpt a.msgPattern b.msgPattern
  msgTemplatePattern := mergeOpt a.msgTemplatePattern b.msgTemplatePattern
  userFields := mergeOpt a.userFields b.userFields
  eventid := mergeOpt a.eventid b.eventid
  exceptionPattern := mergeOpt a.exceptionPattern b.exceptionPattern
  renderingsPattern := mergeOpt a.renderingsPattern b.renderingsPattern

/-- The two builder states configure no criterion slot in common. -/
def DisjointCfg (a b : FilterConfig) : Prop :=
  (a.startTime = none ∨ b.startTime = none) ∧
  (a.endTime = none ∨ b.endTime = none) ∧
  (a.level = none ∨ b.level = none) ∧
  (a.msgPattern = none ∨ b.msgPattern = none) ∧
  (a.msgTemplatePattern = none ∨ b.msgTemplatePattern = none) ∧
  (a.userFields = none ∨ b.userFields = none) ∧
  (a.eventid = none ∨ b.eventid = none) ∧
  (a.exceptionPattern = none ∨ b.exceptionPattern = none) ∧
  (a.renderingsPattern = none ∨ b.renderingsPattern = none)

/-- The configured time range is inverted: both bound strings parse and the
start bound is strictly after the end bound. -/
def timeRangeInverted (s t : String) : Bool :=
  match parse_time s, parse_time t with
  | .ok ds, .ok dt =>
    match pyDTCompare ds dt with
    | some .gt => true
    | _ => false
  | _, _ => false

/-- Discriminator: is this error value of the documented
`ClefJSONDecodeError` form? -/
def isJSONDecodeErr : ClefError → Bool
  | .clefJSONDecodeError _ _ _ => true
  | _ => false

/-- A concrete stand-in for the external `json.loads` collaborator, used to
evaluate the line parser at a concrete input: it decodes one well-formed
line and rejects everything else with a typical `JSONDecodeError` message. -/
def decodeStub (line : String) : Except String (List (String × Json)) :=
  if line = "\x7b\"@l\": \"Info\"\x7d" then .ok [("@l", .str "Info")]
  else .error "Expecting value: line 1 column 1 (char 0)"

/-- Concrete builder state: only a start-time bound configured. -/
def cfgStartOnly : FilterConfig := { startTime := some "2026-01-24T12:00:00Z" }

/-- Concrete builder state: only an end-time bound configured. -/
def cfgEndOnly : FilterConfig := { endTime := some "2026-01-24T10:00:00Z" }

/-- Concrete builder state: inverted time range (start after end). -/
def cfgInverted : FilterConfig :=
  { startTime := some "2026-01-24T12:00:00Z", endTime := some "2026-01-24T10:00:00Z" }

/-- Concrete builder state: only a level criterion configured. -/
def cfgLevelError : FilterConfig := { level := some "Error" }

/-- Concrete event with a timestamp before the sample range. -/
def eventEarly : ClefEvent := ⟨[("@t", Json.str "2026-01-24T09:00:00Z")], []⟩

/-- Concrete event with a timestamp after the sample range. -/
def eventLate : ClefEvent := ⟨[("@t", Json.str "2026-01-24T13:00:00Z")], []⟩

/-- Concrete event whose timestamp string does not parse. -/
def eventBadTs : ClefEvent := ⟨[("@t", Json.str "bogus")], []⟩

/-- Concrete event with no timestamp field. -/
def eventNoTs : ClefEvent := ⟨[("@m", Json.str "hello")], []⟩

/-- Concrete event at Error level with a user field. -/
def eventErrorLevel : ClefEvent :=
  ⟨[("@t", Json.str "2026-01-24T13:30:00Z"), ("@l", Json.str "Error")],
   [("Port", Json.int 8080)]⟩

/-- A sample compiled-pattern search predicate: matches any non-empty string. -/
def searchNonEmpty : String → Bool := fun s => !s.isEmpty

/-- Concrete builder state with all four pattern criteria configured. -/
def cfgFourPatterns : FilterConfig :=
  { msgPattern := some searchNonEmpty, msgTemplatePattern := some searchNonEmpty,
    exceptionPattern := some searchNonEmpty, renderingsPattern := some searchNonEmpty }

/-! ### Helper lemmas about the filter engine -/

/-- The per-event loop returns exactly the passing events in source order,
and counts exactly the skipped events: each event's outcome is independent
of the others. -/
theorem filterLoop_eq (cfg : FilterConfig) (events : List ClefEvent) :
    filterLoop cfg events =
      (events.filter (fun e => evalEvent cfg e == Outcome.pass),
       events.countP (fun e => evalEvent cfg e == Outcome.skip)) := by
  induction events with
  | nil => rfl
  | cons e rest ih =>
    simp only [filterLoop, ih, List.filter_cons, List.countP_cons]
    cases h : evalEvent cfg e <;> simp [h]

/-- With no criterion configured, every event passes evaluation. -/
theorem evalEvent_initial (e : ClefEvent) : evalEvent initialConfig e = .pass := rfl

/-- A sequenced outcome passes iff both halves pass. -/
theorem seqOutcome_pass (a b : Outcome) :
    seqOutcome a b = .pass ↔ a = .pass ∧ b = .pass := by
  cases a <;> simp [seqOutcome]

/-- A sequenced outcome is a skip iff the first half skips, or the first
half passes and the second skips. -/
theorem seqOutcome_skip (a b : Outcome) :
    seqOutcome a b = .skip ↔ a = .skip ∨ (a = .pass ∧ b = .skip) := by
  cases a <;> simp [seqOutcome]

/-! ### The claims about the filter engine -/

/-- C10: executing the filter with no criterion configured returns a new
sequence with exactly the source's events in order and the skip counter at
zero — the identity filter (the source list itself is a value, hence
unchanged). -/
theorem filter_identity_no_criteria (events : List ClefEvent) :
    filterExec initialConfig events = .ok (events, 0) := by
  have h1 : events.filter (fun e => evalEvent initialConfig e == Outcome.pass) = events :=
    List.filter_eq_self.mpr (fun a _ => by simp [evalEvent_initial])
  have h2 : events.countP (fun e => evalEvent initialConfig e == Outcome.skip) = 0 :=
    List.countP_eq_zero.mpr (fun a _ => by simp [evalEvent_initial])
  have hrc : rangeCheck initialConfig = .ok () := rfl
  simp [filterExec, hrc, filterLoop_eq, h1, h2]

/-- C3: with both bounds configured and the start strictly after the end,
execution fails with the `ClefFilterError` configuration error carrying
both bound strings, whatever the source events are — no event sequence is
returned. -/
theorem filter_inverted_range_error (cfg : FilterConfig) (events : List ClefEvent)
    (s t : String) (hs : cfg.startTime = some s) (ht : cfg.endTime = some t)
    (hinv : timeRangeInverted s t = true) :
    filterExec cfg events =
      .error (.clefFilterError
        ("start_time (" ++ s ++ ") is after end_time (" ++ t ++ ")")) := by
  unfold timeRangeInverted at hinv
  cases hps : parse_time s with
  | error e => rw [hps] at hinv; simp at hinv
  | ok ds =>
    cases hpt : parse_time t with
    | error e => rw [hps, hpt] at hinv; simp at hinv
    | ok dt =>
      rw [hps, hpt] at hinv
      have hcmp : pyDTCompare ds dt = some .gt := by
        cases hc : pyDTCompare ds dt with
        | none => simp [hc] at hinv
        | some o =>
          cases o
          · simp [hc] at hinv
          · simp [hc] at hinv
          · rfl
      have hsne : s ≠ "" := by
        intro h
        subst h
        have hok : (parse_time "").isOk = true := by rw [hps]; rfl
        exact absurd hok (by decide)
      have htne : t ≠ "" := by
        intro h
        subst h
        have hok : (parse_time "").isOk = true := by rw [hpt]; rfl
        exact absurd hok (by decide)
      unfold filterExec rangeCheck
      rw [hs, ht]
      simp [hsne, htne, hps, hpt, hcmp]

/-- C3 witness at a concrete inverted configuration. -/
theorem filter_inverted_range_error_witness :
    (cfgInverted.startTime = some "2026-01-24T12:00:00Z" ∧
     cfgInverted.endTime = some "2026-01-24T10:00:00Z" ∧
     timeRangeInverted "2026-01-24T12:00:00Z" "2026-01-24T10:00:00Z" = true) ∧
    filterExec cfgInverted [eventEarly, eventLate] =
      .error (.clefFilterError
        ("start_time (" ++ "2026-01-24T12:00:00Z" ++ ") is after end_time ("
          ++ "2026-01-24T10:00:00Z" ++ ")")) :=
  ⟨⟨rfl, rfl, by decide⟩,
   filter_inverted_range_error cfgInverted [eventEarly, eventLate]
     "2026-01-24T12:00:00Z" "2026-01-24T10:00:00Z" rfl rfl (by decide)⟩

/-- C4: when a time bound is configured (and the range validation passes),
an event whose `@t` field is absent is evaluated to a plain exclusion (not
a skip, not an error): execution succeeds and the event is not in the
result. -/
theorem filter_missing_timestamp_excluded (cfg : FilterConfig)
    (events : List ClefEvent) (e : ClefEvent)
    (hb : (isSetStr cfg.startTime || isSetStr cfg.endTime) = true)
    (ht : e.reified.lookup "@t" = none)
    (hrc : rangeCheck cfg = .ok ()) :
    evalEvent cfg e = Outcome.excl ∧
    ∃ l n, filterExec cfg events = .ok (l, n) ∧ e ∉ l := by
  have hct : checkTime cfg e = .excl := by
    unfold checkTime checkTimeOpt
    rw [hb, ht]
    rfl
  have hev : evalEvent cfg e = Outcome.excl := by
    unfold evalEvent
    rw [hct]
    rfl
  refine ⟨hev, ?_⟩
  refine ⟨events.filter (fun x => evalEvent cfg x == Outcome.pass),
          events.countP (fun x => evalEvent cfg x == Outcome.skip), ?_, ?_⟩
  · simp [filterExec, hrc, filterLoop_eq]
  · intro hmem
    have := List.of_mem_filter hmem
    rw [hev] at this
    simp at this

/-- C4 witness at a concrete start-only configuration and timestamp-less
event. -/
theorem filter_missing_timestamp_excluded_witness :
    ((isSetStr cfgStartOnly.startTime || isSetStr cfgStartOnly.endTime) = true ∧
     eventNoTs.reified.lookup "@t" = none ∧
     rangeCheck cfgStartOnly = .ok ()) ∧
    (evalEvent cfgStartOnly eventNoTs = Outcome.excl ∧
     ∃ l n, filterExec cfgStartOnly [eventLate, eventNoTs] = .ok (l, n) ∧
       eventNoTs ∉ l) :=
  ⟨⟨by decide, by decide, by decide⟩,
   filter_missing_timestamp_excluded cfgStartOnly [eventLate, eventNoTs] eventNoTs
     (by decide) (by decide) (by decide)⟩

/-- C6: once the range validation passes, execution never aborts: it
returns exactly the passing events in source order and a skip counter equal
to the number of per-event failures, each failure excluding only its own
event; in particular an event carrying an unparsable (non-empty, string)
timestamp while a bound is set evaluates to a skip. -/
theorem filter_per_event_isolation (cfg : FilterConfig) (events : List ClefEvent)
    (hrc : rangeCheck cfg = .ok ()) :
    filterExec cfg events =
      .ok (events.filter (fun e => evalEvent cfg e == Outcome.pass),
           events.countP (fun e => evalEvent cfg e == Outcome.skip)) ∧
    (∀ e ts, (isSetStr cfg.startTime || isSetStr cfg.endTime) = true →
       e.reified.lookup "@t" = some (Json.str ts) → ts ≠ "" →
       (parse_time ts).isOk = false → evalEvent cfg e = Outcome.skip) := by
  constructor
  · simp [filterExec, hrc, filterLoop_eq]
  · intro e ts hb hlt hne hbadp
    have hct : checkTime cfg e = .skip := by
      unfold checkTime checkTimeOpt
      rw [hb, hlt]
      cases hp : parse_time ts with
      | error c => simp [pyTruthy, hne, hp]
      | ok d =>
        rw [hp] at hbadp
        simp [Except.isOk, Except.toBool] at hbadp
    unfold evalEvent
    rw [hct]
    rfl

/-- C6 witness: a concrete run where a malformed event is skipped and
counted while the remaining events are still evaluated and returned. -/
theorem filter_per_event_isolation_witness :
    rangeCheck cfgStartOnly = .ok () ∧
    (filterExec cfgStartOnly [eventBadTs, eventLate] =
      .ok ([eventBadTs, eventLate].filter
             (fun e => evalEvent cfgStartOnly e == Outcome.pass),
           [eventBadTs, eventLate].countP
             (fun e => evalEvent cfgStartOnly e == Outcome.skip)) ∧
     (∀ e ts, (isSetStr cfgStartOnly.startTime || isSetStr cfgStartOnly.endTime) = true →
        e.reified.lookup "@t" = some (Json.str ts) → ts ≠ "" →
        (parse_time ts).isOk = false → evalEvent cfgStartOnly e = Outcome.skip)) :=
  ⟨by decide, filter_per_event_isolation cfgStartOnly [eventBadTs, eventLate] (by decide)⟩

/-- C7: the time setters validate immediately at configuration time,
independently of execution: an empty value raises `ValueError` and an
unparsable value raises `ClefInvalidTimestampError` carrying the offending
string and the parse cause. -/
theorem time_setters_validate_eagerly (cfg : FilterConfig) (s c : String)
    (hne : s ≠ "") (hbad : parse_time s = .error c) :
    set_start_time cfg "" = .error (.valueError "start_time cannot be None or empty") ∧
    set_end_time cfg "" = .error (.valueError "end_time cannot be None or empty") ∧
    set_start_time cfg s = .error (.invalidTimestamp s c) ∧
    set_end_time cfg s = .error (.invalidTimestamp s c) := by
  refine ⟨rfl, rfl, ?_, ?_⟩ <;> simp [set_start_time, set_end_time, hne, hbad]

/-- C7 witness at a concrete non-ISO string. -/
theorem time_setters_validate_eagerly_witness :
    (("not-a-timestamp" : String) ≠ "" ∧
     parse_time "not-a-timestamp" =
       .error "Invalid timestamp format: Invalid isoformat string: 'not-a-timestamp'") ∧
    (set_start_time initialConfig "" =
       .error (.valueError "start_time cannot be None or empty") ∧
     set_end_time initialConfig "" =
       .error (.valueError "end_time cannot be None or empty") ∧
     set_start_time initialConfig "not-a-timestamp" =
       .error (.invalidTimestamp "not-a-timestamp"
         "Invalid timestamp format: Invalid isoformat string: 'not-a-timestamp'") ∧
     set_end_time initialConfig "not-a-timestamp" =
       .error (.invalidTimestamp "not-a-timestamp"
         "Invalid timestamp format: Invalid isoformat string: 'not-a-timestamp'")) :=
  ⟨⟨by decide, by decide⟩,
   time_setters_validate_eagerly initialConfig "not-a-timestamp"
     "Invalid timestamp format: Invalid isoformat string: 'not-a-timestamp'"
     (by decide) (by decide)⟩

/-- C8: each pattern criterion is matched against the corresponding field
defaulted to the empty string when missing and passed through `str()` when
present; the criterion passes exactly when the pattern's search predicate
matches that string, and can only pass or exclude (a stringification of a
JSON-decoded value never raises, so the skip branch is unreachable). -/
theorem pattern_criteria_semantics (cfg : FilterConfig) (e : ClefEvent)
    (pm pt px pr : String → Bool)
    (hm : cfg.msgPattern = some pm) (htp : cfg.msgTemplatePattern = some pt)
    (hx : cfg.exceptionPattern = some px) (hr : cfg.renderingsPattern = some pr) :
    (checkMsg cfg e = .pass ↔ pm (fieldStr e "@m") = true) ∧
    (checkTemplate cfg e = .pass ↔ pt (fieldStr e "@mt") = true) ∧
    (checkException cfg e = .pass ↔ px (fieldStr e "@x") = true) ∧
    (checkRenderings cfg e = .pass ↔ pr (fieldStr e "@r") = true) ∧
    (checkMsg cfg e ≠ .skip ∧ checkTemplate cfg e ≠ .skip ∧
       checkException cfg e ≠ .skip ∧ checkRenderings cfg e ≠ .skip) ∧
    (∀ key, e.reified.lookup key = none → fieldStr e key = "") ∧
    (∀ key v, e.reified.lookup key = some v → fieldStr e key = pyStr v) ∧
    (∀ s2, pyStr (Json.str s2) = s2) := by
  refine ⟨?_, ?_, ?_, ?_, ⟨?_, ?_, ?_, ?_⟩, ?_, ?_, ?_⟩
  · simp only [checkMsg, checkSearch, hm]
    cases h : pm (fieldStr e "@m") <;> simp [h]
  · simp only [checkTemplate, checkSearch, htp]
    cases h : pt (fieldStr e "@mt") <;> simp [h]
  · simp only [checkException, checkSearch, hx]
    cases h : px (fieldStr e "@x") <;> simp [h]
  · simp only [checkRenderings, checkSearch, hr]
    cases h : pr (fieldStr e "@r") <;> simp [h]
  · simp only [checkMsg, checkSearch, hm]
    cases h : pm (fieldStr e "@m") <;> simp [h]
  · simp only [checkTemplate, checkSearch, htp]
    cases h : pt (fieldStr e "@mt") <;> simp [h]
  · simp only [checkException, checkSearch, hx]
    cases h : px (fieldStr e "@x") <;> simp [h]
  · simp only [checkRenderings, checkSearch, hr]
    cases h : pr (fieldStr e "@r") <;> simp [h]
  · intro key hk; simp [fieldStr, hk]
  · intro key v hk; simp [fieldStr, hk]
  · intro s2; rfl

/-- C8 witness at a concrete fully-configured pattern state and event. -/
theorem pattern_criteria_semantics_witness :
    (cfgFourPatterns.msgPattern = some searchNonEmpty ∧
     cfgFourPatterns.msgTemplatePattern = some searchNonEmpty ∧
     cfgFourPatterns.exceptionPattern = some searchNonEmpty ∧
     cfgFourPatterns.renderingsPattern = some searchNonEmpty) ∧
    ((checkMsg cfgFourPatterns eventNoTs = .pass ↔
        searchNonEmpty (fieldStr eventNoTs "@m") = true) ∧
     (checkTemplate cfgFourPatterns eventNoTs = .pass ↔
        searchNonEmpty (fieldStr eventNoTs "@mt") = true) ∧
     (checkException cfgFourPatterns eventNoTs = .pass ↔
        searchNonEmpty (fieldStr eventNoTs "@x") = true) ∧
     (checkRenderings cfgFourPatterns eventNoTs = .pass ↔
        searchNonEmpty (fieldStr eventNoTs "@r") = true) ∧
     (checkMsg cfgFourPatterns eventNoTs ≠ .skip ∧
        checkTemplate cfgFourPatterns eventNoTs ≠ .skip ∧
        checkException cfgFourPatterns eventNoTs ≠ .skip ∧
        checkRenderings cfgFourPatterns eventNoTs ≠ .skip) ∧
     (∀ key, eventNoTs.reified.lookup key = none → fieldStr eventNoTs key = "") ∧
     (∀ key v, eventNoTs.reified.lookup key = some v →
        fieldStr eventNoTs key = pyStr v) ∧
     (∀ s2, pyStr (Json.str s2) = s2)) :=
  ⟨⟨rfl, rfl, rfl, rfl⟩,
   pattern_criteria_semantics cfgFourPatterns eventNoTs
     searchNonEmpty searchNonEmpty searchNonEmpty searchNonEmpty rfl rfl rfl rfl⟩

/-! ### Helper lemmas about the classifier's dictionaries -/

/-- Association-list lookup at the head key. -/
theorem lookup_cons_self (k : String) (b : Json) (es : List (String × Json)) :
    ((k, b) :: es).lookup k = some b := by
  simp [List.lookup_cons]

/-- Association-list lookup skips a head with a different key. -/
theorem lookup_cons_ne (a k : String) (b : Json) (es : List (String × Json))
    (h : a ≠ k) : ((k, b) :: es).lookup a = es.lookup a := by
  rw [List.lookup_cons, show (a == k) = false from beq_eq_false_iff_ne.mpr h]

/-- Replacing the value stored at `k` makes `k` look up the new value. -/
theorem lookup_map_replace (m : List (String × Json)) (k : String) (v : Json)
    (h : (m.lookup k).isSome = true) :
    (m.map (fun kv => if kv.1 = k then (kv.1, v) else kv)).lookup k = some v := by
  induction m with
  | nil => simp at h
  | cons hd tl ih =>
    obtain ⟨k1, v1⟩ := hd
    by_cases hk : k = k1
    · subst hk
      simp only [List.map_cons, if_pos rfl]
      exact lookup_cons_self k v _
    · rw [lookup_cons_ne _ _ _ _ hk] at h
      simp only [List.map_cons, if_neg (fun hh => hk (Eq.symm hh))]
      rw [lookup_cons_ne _ _ _ _ hk]
      exact ih h

/-- Looking up an absent key after appending it finds the appended value. -/
theorem lookup_append_single (m : List (String × Json)) (k : String) (v : Json)
    (h : m.lookup k = none) :
    ((m ++ [(k, v)]).lookup k) = some v := by
  induction m with
  | nil => exact lookup_cons_self k v []
  | cons hd tl ih =>
    obtain ⟨k1, v1⟩ := hd
    by_cases hk : k = k1
    · subst hk
      rw [lookup_cons_self] at h
      cases h
    · rw [lookup_cons_ne _ _ _ _ hk] at h
      rw [List.cons_append, lookup_cons_ne _ _ _ _ hk]
      exact ih h

/-- Dict assignment then lookup of the same key. -/
theorem dictInsert_lookup_self (m : List (String × Json)) (k : String) (v : Json) :
    (dictInsert m k v).lookup k = some v := by
  unfold dictInsert
  by_cases h : (m.lookup k).isSome = true
  · rw [if_pos h]
    exact lookup_map_replace m k v h
  · have h0 : m.lookup k = none := by
      cases hm : m.lookup k with
      | none => rfl
      | some w => rw [hm] at h; simp at h
    rw [if_neg (by simpa using h)]
    exact lookup_append_single m k v h0

/-- Value replacement at one key leaves every other key's binding
untouched. -/
theorem lookup_map_replace_other (m : List (String × Json)) (k : String) (v : Json)
    (k2 : String) (h : k2 ≠ k) :
    (m.map (fun kv => if kv.1 = k then (kv.1, v) else kv)).lookup k2 = m.lookup k2 := by
  induction m with
  | nil => rfl
  | cons hd tl ih =>
    obtain ⟨k1, v1⟩ := hd
    simp only [List.map_cons]
    by_cases hk1 : (k1 : String) = k
    · rw [if_pos hk1]
      have hne : k2 ≠ k1 := fun hh => h (hh.trans hk1)
      rw [lookup_cons_ne _ _ _ _ hne, lookup_cons_ne _ _ _ _ hne]
      exact ih
    · rw [if_neg hk1]
      by_cases hk2 : k2 = k1
      · subst hk2
        rw [lookup_cons_self, lookup_cons_self]
      · rw [lookup_cons_ne _ _ _ _ hk2, lookup_cons_ne _ _ _ _ hk2]
        exact ih

/-- Appending a new key's entry leaves every other key's binding
untouched. -/
theorem lookup_append_other (m : List (String × Json)) (k : String) (v : Json)
    (k2 : String) (h : k2 ≠ k) :
    ((m ++ [(k, v)]).lookup k2) = m.lookup k2 := by
  induction m with
  | nil => exact lookup_cons_ne _ _ _ _ h
  | cons hd tl ih =>
    obtain ⟨k1, v1⟩ := hd
    rw [List.cons_append]
    by_cases hk2 : k2 = k1
    · subst hk2
      rw [lookup_cons_self, lookup_cons_self]
    · rw [lookup_cons_ne _ _ _ _ hk2, lookup_cons_ne _ _ _ _ hk2]
      exact ih

/-- Dict assignment leaves every other key's binding untouched. -/
theorem dictInsert_lookup_other (m : List (String × Json)) (k : String) (v : Json)
    (k2 : String) (h : k2 ≠ k) :
    (dictInsert m k v).lookup k2 = m.lookup k2 := by
  unfold dictInsert
  split
  · exact lookup_map_replace_other m k v k2 h
  · exact lookup_append_other m k v k2 h

/-- Dict assignment never removes a present key. -/
theorem dictInsert_isSome_mono (m : List (String × Json)) (k : String) (v : Json)
    (k2 : String) (h : (m.lookup k2).isSome = true) :
    ((dictInsert m k v).lookup k2).isSome = true := by
  by_cases hk : k2 = k
  · subst hk
    rw [dictInsert_lookup_self]
    rfl
  · rw [dictInsert_lookup_other m k v k2 hk]
    exact h

/-! ### Helper lemmas about the classifier loop -/

/-- Entries whose key differs from `k` never change what `k` looks up in
the reified map. -/
theorem loop_reified_skip (acc : ClefEvent) (evt : List (String × Json)) (k : String)
    (h : k ∉ evt.map Prod.fst) :
    (parseEventLoop acc evt).reified.lookup k = acc.reified.lookup k := by
  induction evt generalizing acc with
  | nil => rfl
  | cons hd tl ih =>
    obtain ⟨k1, v1⟩ := hd
    simp only [List.map_cons, List.mem_cons] at h
    push_neg at h
    rw [parseEventLoop, ih _ h.2]
    unfold parseStep
    split
    · exact dictInsert_lookup_other _ _ _ _ h.1
    · split <;> rfl

/-- A standard-key entry ends up in the reified map with its own value,
when the decoded object's keys are unique. -/
theorem loop_reified_std (acc : ClefEvent) (evt : List (String × Json))
    (k : String) (v : Json)
    (hstd : REIFIED_KEYS.contains k = true)
    (hmem : (k, v) ∈ evt)
    (hnd : (evt.map Prod.fst).Nodup) :
    (parseEventLoop acc evt).reified.lookup k = some v := by
  induction evt generalizing acc with
  | nil => simp at hmem
  | cons hd tl ih =>
    obtain ⟨k1, v1⟩ := hd
    simp only [List.map_cons, List.nodup_cons] at hnd
    rcases List.mem_cons.mp hmem with heq | hmem2
    · injection heq with h1 h2
      subst h1
      subst h2
      rw [parseEventLoop, loop_reified_skip _ _ _ hnd.1]
      unfold parseStep
      rw [if_pos hstd]
      exact dictInsert_lookup_self _ _ _
    · rw [parseEventLoop]
      exact ih _ hmem2 hnd.2

/-- A non-standard key never appears in the reified map. -/
theorem loop_reified_nonstd (acc : ClefEvent) (evt : List (String × Json)) (k : String)
    (hk : REIFIED_KEYS.contains k = false)
    (hacc : acc.reified.lookup k = none) :
    (parseEventLoop acc evt).reified.lookup k = none := by
  induction evt generalizing acc with
  | nil => exact hacc
  | cons hd tl ih =>
    obtain ⟨k1, v1⟩ := hd
    rw [parseEventLoop]
    apply ih
    unfold parseStep
    split
    next hstd =>
      have hne : k ≠ k1 := by
        intro hh
        subst hh
        rw [hstd] at hk
        cases hk
      rw [show ({ acc with reified := dictInsert acc.reified k1 v1 } : ClefEvent).reified
            = dictInsert acc.reified k1 v1 from rfl,
         dictInsert_lookup_other _ _ _ _ hne]
      exact hacc
    next => split <;> exact hacc

/-- Entries whose stored name differs from `k2` never change what `k2`
looks up in the user map. -/
theorem loop_user_skip (acc : ClefEvent) (evt : List (String × Json)) (k2 : String)
    (h : ∀ p ∈ evt, REIFIED_KEYS.contains p.1 = false → storedName p.1 ≠ k2) :
    (parseEventLoop acc evt).user.lookup k2 = acc.user.lookup k2 := by
  induction evt generalizing acc with
  | nil => rfl
  | cons hd tl ih =>
    obtain ⟨k1, v1⟩ := hd
    rw [parseEventLoop, ih _ (fun p hp => h p (List.mem_cons_of_mem _ hp))]
    unfold parseStep
    split
    · rfl
    next hstd =>
      have hns : REIFIED_KEYS.contains k1 = false := by
        cases hc : REIFIED_KEYS.contains k1 with
        | false => rfl
        | true => exact absurd hc hstd
      have hsn := h (k1, v1) (List.mem_cons_self _ _) hns
      split
      next hat =>
        have hne : k2 ≠ dropFirstChar k1 := by
          intro hh
          exact hsn (by simpa [storedName, hat] using hh.symm)
        exact dictInsert_lookup_other _ _ _ _ hne
      next hat =>
        have hatf : startsWithAtAt k1 = false := by
          cases hc : startsWithAtAt k1 with
          | false => rfl
          | true => exact absurd hc hat
        have hne : k2 ≠ k1 := by
          intro hh
          exact hsn (by simpa [storedName, hatf] using hh.symm)
        exact dictInsert_lookup_other _ _ _ _ hne

/-- The classifier loop never removes a user-map key. -/
theorem loop_user_isSome_mono (acc : ClefEvent) (evt : List (String × Json))
    (k2 : String) (h : (acc.user.lookup k2).isSome = true) :
    ((parseEventLoop acc evt).user.lookup k2).isSome = true := by
  induction evt generalizing acc with
  | nil => exact h
  | cons hd tl ih =>
    obtain ⟨k1, v1⟩ := hd
    rw [parseEventLoop]
    apply ih
    unfold parseStep
    split
    · exact h
    · split <;> exact dictInsert_isSome_mono _ _ _ _ h

/-- A non-standard entry makes its stored name present in the user map. -/
theorem loop_user_present (acc : ClefEvent) (evt : List (String × Json))
    (k : String) (v : Json)
    (hk : REIFIED_KEYS.contains k = false)
    (hmem : (k, v) ∈ evt) :
    ((parseEventLoop acc evt).user.lookup (storedName k)).isSome = true := by
  induction evt generalizing acc with
  | nil => simp at hmem
  | cons hd tl ih =>
    obtain ⟨k1, v1⟩ := hd
    rcases List.mem_cons.mp hmem with heq | hmem2
    · injection heq with h1 h2
      subst h1
      subst h2
      rw [parseEventLoop]
      apply loop_user_isSome_mono
      unfold parseStep
      rw [if_neg (by rw [hk]; simp)]
      unfold storedName
      split
      · rw [dictInsert_lookup_self]
        rfl
      · rw [dictInsert_lookup_self]
        rfl
    · rw [parseEventLoop]
      exact ih _ hmem2

/-- A non-standard entry whose stored name no other entry shares ends up in
the user map with its own value, when the decoded object's keys are
unique. -/
theorem loop_user_value (acc : ClefEvent) (evt : List (String × Json))
    (k : String) (v : Json)
    (hk : REIFIED_KEYS.contains k = false)
    (hmem : (k, v) ∈ evt)
    (hnd : (evt.map Prod.fst).Nodup)
    (huniq : ∀ p ∈ evt, p.1 ≠ k → storedName p.1 ≠ storedName k) :
    (parseEventLoop acc evt).user.lookup (storedName k) = some v := by
  induction evt generalizing acc with
  | nil => simp at hmem
  | cons hd tl ih =>
    obtain ⟨k1, v1⟩ := hd
    simp only [List.map_cons, List.nodup_cons] at hnd
    rcases List.mem_cons.mp hmem with heq | hmem2
    · injection heq with h1 h2
      subst h1
      subst h2
      rw [parseEventLoop]
      have htl : ∀ p ∈ tl, REIFIED_KEYS.contains p.1 = false →
          storedName p.1 ≠ storedName k := by
        intro p hp _
        apply huniq p (List.mem_cons_of_mem _ hp)
        intro hpk
        exact hnd.1 (hpk ▸ List.mem_map_of_mem Prod.fst hp)
      rw [loop_user_skip _ _ _ htl]
      unfold parseStep
      rw [if_neg (by rw [hk]; simp)]
      unfold storedName
      split
      · exact dictInsert_lookup_self _ _ _
      · exact dictInsert_lookup_self _ _ _
    · rw [parseEventLoop]
      exact ih _ hmem2 hnd.2 (fun p hp => huniq p (List.mem_cons_of_mem _ hp))

/-- Every key of the final user map is the stored name of some non-standard
source entry (or was already present in the starting accumulator). -/
theorem loop_user_origin (acc : ClefEvent) (evt : List (String × Json)) (k2 : String)
    (h : ((parseEventLoop acc evt).user.lookup k2).isSome = true) :
    (acc.user.lookup k2).isSome = true ∨
      ∃ p, p ∈ evt ∧ REIFIED_KEYS.contains p.1 = false ∧ storedName p.1 = k2 := by
  induction evt generalizing acc with
  | nil => exact Or.inl h
  | cons hd tl ih =>
    obtain ⟨k1, v1⟩ := hd
    rw [parseEventLoop] at h
    rcases ih _ h with hacc | ⟨p, hp, hc, hs⟩
    · unfold parseStep at hacc
      split at hacc
      · exact Or.inl hacc
      next hstd =>
        have hns : REIFIED_KEYS.contains k1 = false := by
          cases hc : REIFIED_KEYS.contains k1 with
          | false => rfl
          | true => exact absurd hc hstd
        split at hacc
        next hat =>
          by_cases hk2 : k2 = dropFirstChar k1
          · exact Or.inr ⟨(k1, v1), List.mem_cons_self _ _, hns,
              by simp [storedName, hat, hk2]⟩
          · rw [show ({ acc with user := dictInsert acc.user (dropFirstChar k1) v1 } :
                    ClefEvent).user = dictInsert acc.user (dropFirstChar k1) v1 from rfl,
               dictInsert_lookup_other _ _ _ _ hk2] at hacc
            exact Or.inl hacc
        next hat =>
          have hatf : startsWithAtAt k1 = false := by
            cases hc : startsWithAtAt k1 with
            | false => rfl
            | true => exact absurd hc hat
          by_cases hk2 : k2 = k1
          · exact Or.inr ⟨(k1, v1), List.mem_cons_self _ _, hns,
              by simp [storedName, hatf, hk2]⟩
          · rw [show ({ acc with user := dictInsert acc.user k1 v1 } :
                    ClefEvent).user = dictInsert acc.user k1 v1 from rfl,
               dictInsert_lookup_other _ _ _ _ hk2] at hacc
            exact Or.inl hacc
    · exact Or.inr ⟨p, List.mem_cons_of_mem _ hp, hc, hs⟩

/-- The classifier loop never removes a reified-map key. -/
theorem loop_reified_isSome_mono (acc : ClefEvent) (evt : List (String × Json))
    (k : String) (h : (acc.reified.lookup k).isSome = true) :
    ((parseEventLoop acc evt).reified.lookup k).isSome = true := by
  induction evt generalizing acc with
  | nil => exact h
  | cons hd tl ih =>
    obtain ⟨k1, v1⟩ := hd
    rw [parseEventLoop]
    apply ih
    unfold parseStep
    split
    · exact dictInsert_isSome_mono _ _ _ _ h
    · split <;> exact h

/-- A standard-key entry makes its key present in the reified map. -/
theorem loop_reified_present (acc : ClefEvent) (evt : List (String × Json))
    (k : String) (v : Json)
    (hstd : REIFIED_KEYS.contains k = true)
    (hmem : (k, v) ∈ evt) :
    ((parseEventLoop acc evt).reified.lookup k).isSome = true := by
  induction evt generalizing acc with
  | nil => simp at hmem
  | cons hd tl ih =>
    obtain ⟨k1, v1⟩ := hd
    rcases List.mem_cons.mp hmem with heq | hmem2
    · injection heq with h1 h2
      subst h1
      subst h2
      rw [parseEventLoop]
      apply loop_reified_isSome_mono
      unfold parseStep
      rw [if_pos hstd]
      rw [dictInsert_lookup_self]
      rfl
    · rw [parseEventLoop]
      exact ih _ hmem2

/-! ### The claims about the classifier and the line parser -/

/-- C1 counterexample: with source keys `@t` and `@@t`, the `@@` unescape
stores the name `@t` in BOTH output mappings — the source key `@t` does not
appear in exactly one of them, refuting the disjointness invariant. -/
theorem parse_event_partition_cex :
    parse_event [("@t", Json.str "2026-01-24T10:00:00Z"), ("@@t", Json.int 1)] =
      ⟨[("@t", Json.str "2026-01-24T10:00:00Z")], [("@t", Json.int 1)]⟩ ∧
    ((parse_event [("@t", Json.str "2026-01-24T10:00:00Z"),
        ("@@t", Json.int 1)]).reified.lookup "@t").isSome = true ∧
    ((parse_event [("@t", Json.str "2026-01-24T10:00:00Z"),
        ("@@t", Json.int 1)]).user.lookup "@t").isSome = true := by
  refine ⟨rfl, ?_, ?_⟩ <;> decide

/-- C1 amended: every source key is routed into exactly one of the two maps
and its stored name is present there (no key is dropped); the reified map
holds only standard source keys, and every user-map key is the stored name
of some non-standard source entry — but the two maps' stored key sets need
not be disjoint, and colliding stored names share one entry. -/
theorem parse_event_partition_amended (evt : List (String × Json))
    (k : String) (v : Json) (hmem : (k, v) ∈ evt) :
    (REIFIED_KEYS.contains k = true →
       ((parse_event evt).reified.lookup k).isSome = true) ∧
    (REIFIED_KEYS.contains k = false →
       ((parse_event evt).user.lookup (storedName k)).isSome = true ∧
       (parse_event evt).reified.lookup k = none) ∧
    (∀ k2, REIFIED_KEYS.contains k2 = false →
       (parse_event evt).reified.lookup k2 = none) ∧
    (∀ k2, ((parse_event evt).user.lookup k2).isSome = true →
       ∃ p, p ∈ evt ∧ REIFIED_KEYS.contains p.1 = false ∧ storedName p.1 = k2) := by
  refine ⟨?_, ?_, ?_, ?_⟩
  · intro hstd
    exact loop_reified_present _ _ _ _ hstd hmem
  · intro hns
    exact ⟨loop_user_present _ _ _ _ hns hmem, loop_reified_nonstd _ _ _ hns rfl⟩
  · intro k2 hk2
    exact loop_reified_nonstd _ _ _ hk2 rfl
  · intro k2 hk2
    rcases loop_user_origin _ _ _ hk2 with hemp | hex
    · simp at hemp
    · exact hex

/-- C1 amended, witnessed at a concrete user-field entry. -/
theorem parse_event_partition_amended_witness :
    (("@@Port", Json.int 8080) ∈ [(("@@Port" : String), Json.int 8080)]) ∧
    ((REIFIED_KEYS.contains "@@Port" = true →
       ((parse_event [("@@Port", Json.int 8080)]).reified.lookup "@@Port").isSome = true) ∧
     (REIFIED_KEYS.contains "@@Port" = false →
       ((parse_event [("@@Port", Json.int 8080)]).user.lookup
           (storedName "@@Port")).isSome = true ∧
       (parse_event [("@@Port", Json.int 8080)]).reified.lookup "@@Port" = none) ∧
     (∀ k2, REIFIED_KEYS.contains k2 = false →
       (parse_event [("@@Port", Json.int 8080)]).reified.lookup k2 = none) ∧
     (∀ k2, ((parse_event [("@@Port", Json.int 8080)]).user.lookup k2).isSome = true →
       ∃ p, p ∈ [(("@@Port" : String), Json.int 8080)] ∧
         REIFIED_KEYS.contains p.1 = false ∧ storedName p.1 = k2)) :=
  ⟨by decide,
   parse_event_partition_amended [("@@Port", Json.int 8080)] "@@Port" (Json.int 8080)
     (by decide)⟩

/-- C2: for a decoded object (unique keys), a standard wire key is stored
unchanged in the reified map with its unmodified value; any other key never
reaches the reified map, its stored name (first character dropped exactly
when the key starts with `@@`, the key itself otherwise) is present in the
user map, and — when no other source key collides with that stored name —
it holds the unmodified value. -/
theorem parse_event_classification (evt : List (String × Json))
    (k : String) (v : Json)
    (hmem : (k, v) ∈ evt) (hnd : (evt.map Prod.fst).Nodup) :
    (REIFIED_KEYS.contains k = true →
       (parse_event evt).reified.lookup k = some v) ∧
    (REIFIED_KEYS.contains k = false →
       (parse_event evt).reified.lookup k = none ∧
       ((parse_event evt).user.lookup (storedName k)).isSome = true ∧
       ((∀ p ∈ evt, p.1 ≠ k → storedName p.1 ≠ storedName k) →
          (parse_event evt).user.lookup (storedName k) = some v)) ∧
    (startsWithAtAt k = true → storedName k = dropFirstChar k) ∧
    (startsWithAtAt k = false → storedName k = k) := by
  refine ⟨fun hstd => loop_reified_std _ _ _ _ hstd hmem hnd,
          fun hns => ⟨loop_reified_nonstd _ _ _ hns rfl,
                      loop_user_present _ _ _ _ hns hmem,
                      fun huniq => loop_user_value _ _ _ _ hns hmem hnd huniq⟩,
          fun hat => by simp [storedName, hat],
          fun hnat => by simp [storedName, hnat]⟩

/-- C2, witnessed at a concrete two-entry object. -/
theorem parse_event_classification_witness :
    ((("@@Src", Json.int 1) ∈
        [(("@t" : String), Json.str "x"), ("@@Src", Json.int 1)]) ∧
     ([(("@t" : String), Json.str "x"), ("@@Src", Json.int 1)].map
        Prod.fst).Nodup) ∧
    ((REIFIED_KEYS.contains "@@Src" = true →
       (parse_event [("@t", Json.str "x"),
          ("@@Src", Json.int 1)]).reified.lookup "@@Src" = some (Json.int 1)) ∧
     (REIFIED_KEYS.contains "@@Src" = false →
       (parse_event [("@t", Json.str "x"),
          ("@@Src", Json.int 1)]).reified.lookup "@@Src" = none ∧
       ((parse_event [("@t", Json.str "x"),
          ("@@Src", Json.int 1)]).user.lookup (storedName "@@Src")).isSome = true ∧
       ((∀ p ∈ [(("@t" : String), Json.str "x"), ("@@Src", Json.int 1)],
           p.1 ≠ "@@Src" → storedName p.1 ≠ storedName "@@Src") →
          (parse_event [("@t", Json.str "x"),
            ("@@Src", Json.int 1)]).user.lookup (storedName "@@Src") =
            some (Json.int 1))) ∧
     (startsWithAtAt "@@Src" = true → storedName "@@Src" = dropFirstChar "@@Src") ∧
     (startsWithAtAt "@@Src" = false → storedName "@@Src" = "@@Src")) :=
  ⟨⟨by decide, by decide⟩,
   parse_event_classification [("@t", Json.str "x"), ("@@Src", Json.int 1)]
     "@@Src" (Json.int 1) (by decide) (by decide)⟩

/-- C5 evidence: on a file whose third physical line (after one valid line
and one blank line) is not JSON, `iter_events` raises the plain
`ClefParseError` carrying the 1-indexed line number and the decode cause in
its message, but NOT the `ClefJSONDecodeError` form documented in
pyclef/exceptions.py and asserted by the tests: the raised value carries no
line content at all, while the documented error would carry the content
with 100-character truncation. -/
theorem iter_events_decode_error_shape :
    iter_events decodeStub ["\x7b\"@l\": \"Info\"\x7d", "   ", "INVALID JSON"] =
      .error (.clefParseError
        "Invalid JSON on line 3: Expecting value: line 1 column 1 (char 0)") ∧
    isJSONDecodeErr (.clefParseError
        "Invalid JSON on line 3: Expecting value: line 1 column 1 (char 0)") = false ∧
    decide ("INVALID JSON".data <:+:
        "Invalid JSON on line 3: Expecting value: line 1 column 1 (char 0)".data)
      = false ∧
    clefJSONDecodeErrorMessage 3 "INVALID JSON"
        "Expecting value: line 1 column 1 (char 0)" =
      "Invalid JSON on line 3: Expecting value: line 1 column 1 (char 0)\nContent: INVALID JSON" := by
  refine ⟨?_, rfl, ?_, ?_⟩ <;> decide

/-! ### Helper lemmas for criteria composition -/

/-- An absent bound lets the inner outcome through. -/
theorem checkBound_none (edt : PyDateTime) (o : Ordering) (next : Outcome) :
    checkBound none edt o next = next := rfl

/-- A falsy bound (absent or empty) lets the inner outcome through. -/
theorem checkBound_falsy (b : Option String) (edt : PyDateTime) (o : Ordering)
    (next : Outcome) (h : isSetStr b = false) :
    checkBound b edt o next = next := by
  cases b with
  | none => rfl
  | some s =>
    have hse : s = "" := by simpa [isSetStr] using h
    subst hse
    rfl

/-- A bound check sequences with its continuation. -/
theorem checkBound_seq (b : Option String) (edt : PyDateTime) (o : Ordering)
    (next : Outcome) :
    checkBound b edt o next = seqOutcome (checkBound b edt o .pass) next := by
  cases b with
  | none => rfl
  | some s =>
    unfold checkBound
    by_cases hse : s = ""
    · simp [hse, seqOutcome]
    · simp only [if_neg hse]
      cases hp : parse_time s with
      | error c => simp [seqOutcome]
      | ok bdt =>
        cases hc : pyDTCompare edt bdt with
        | none => simp [hc, seqOutcome]
        | some o2 => by_cases ho : o2 = o <;> simp [hc, ho, seqOutcome]

/-- The time block with no bound set passes. -/
theorem checkTimeOpt_none_none (e : ClefEvent) : checkTimeOpt none none e = .pass := rfl

/-- The time block passes iff the start-only and end-only blocks both
pass. -/
theorem checkTimeOpt_split (sb eb : Option String) (ev : ClefEvent) :
    checkTimeOpt sb eb ev = .pass ↔
      (checkTimeOpt sb none ev = .pass ∧ checkTimeOpt none eb ev = .pass) := by
  unfold checkTimeOpt
  cases hs : isSetStr sb <;> cases he : isSetStr eb
  · simp [isSetStr]
  · cases hlt : ev.reified.lookup "@t" with
    | none => simp [isSetStr, hlt]
    | some v =>
      cases htr : pyTruthy v with
      | false => simp [isSetStr, hlt, htr]
      | true =>
        cases v with
        | str ts =>
          cases hp : parse_time ts with
          | error c => simp [isSetStr, hlt, htr, hp]
          | ok edt =>
            have hcb : ∀ next, checkBound sb edt Ordering.lt next = next :=
              fun next => checkBound_falsy sb edt .lt next hs
            simp [isSetStr, hlt, htr, hp, hcb, checkBound_none]
        | null => simp [isSetStr, hlt, htr]
        | bool b2 => simp [isSetStr, hlt, htr]
        | int n => simp [isSetStr, hlt, htr]
        | arr xs => simp [isSetStr, hlt, htr]
        | obj fs => simp [isSetStr, hlt, htr]
  · cases hlt : ev.reified.lookup "@t" with
    | none => simp [isSetStr, hlt]
    | some v =>
      cases htr : pyTruthy v with
      | false => simp [isSetStr, hlt, htr]
      | true =>
        cases v with
        | str ts =>
          cases hp : parse_time ts with
          | error c => simp [isSetStr, hlt, htr, hp]
          | ok edt =>
            have hcb : ∀ next, checkBound eb edt Ordering.gt next = next :=
              fun next => checkBound_falsy eb edt .gt next he
            simp [isSetStr, hlt, htr, hp, hcb, checkBound_none]
        | null => simp [isSetStr, hlt, htr]
        | bool b2 => simp [isSetStr, hlt, htr]
        | int n => simp [isSetStr, hlt, htr]
        | arr xs => simp [isSetStr, hlt, htr]
        | obj fs => simp [isSetStr, hlt, htr]
  · cases hlt : ev.reified.lookup "@t" with
    | none => simp [isSetStr, hlt]
    | some v =>
      cases htr : pyTruthy v with
      | false => simp [isSetStr, hlt, htr]
      | true =>
        cases v with
        | str ts =>
          cases hp : parse_time ts with
          | error c => simp [isSetStr, hlt, htr, hp]
          | ok edt =>
            have hseq := checkBound_seq sb edt .lt (checkBound eb edt .gt .pass)
            simp [isSetStr, hlt, htr, hp, hseq, checkBound_none, seqOutcome_pass]
        | null => simp [isSetStr, hlt, htr]
        | bool b2 => simp [isSetStr, hlt, htr]
        | int n => simp [isSetStr, hlt, htr]
        | arr xs => simp [isSetStr, hlt, htr]
        | obj fs => simp [isSetStr, hlt, htr]

/-- Merging with an absent left slot. -/
theorem mergeOpt_none_left {α : Type} (y : Option α) : mergeOpt none y = y := rfl

/-- Merging with an absent right slot. -/
theorem mergeOpt_none_right {α : Type} (x : Option α) : mergeOpt x none = x := by
  cases x <;> rfl

/-- Every criterion block passes iff the whole evaluation passes. -/
theorem evalEvent_pass_iff (cfg : FilterConfig) (e : ClefEvent) :
    evalEvent cfg e = .pass ↔
      (checkTime cfg e = .pass ∧ checkLevel cfg e = .pass ∧
       checkMsg cfg e = .pass ∧ checkTemplate cfg e = .pass ∧
       checkException cfg e = .pass ∧ checkRenderings cfg e = .pass ∧
       checkUserFields cfg e = .pass ∧ checkEventId cfg e = .pass) := by
  unfold evalEvent
  simp [seqOutcome_pass, and_assoc]

/-- With disjointly-configured builder states, the merged evaluation passes
iff both single evaluations pass (AND-composition at the event level). -/
theorem evalEvent_merge_pass (a b : FilterConfig) (e : ClefEvent)
    (hd : DisjointCfg a b) :
    evalEvent (mergeCfg a b) e = .pass ↔
      (evalEvent a e = .pass ∧ evalEvent b e = .pass) := by
  obtain ⟨h1, h2, h3, h4, h5, h6, h7, h8, h9⟩ := hd
  rw [evalEvent_pass_iff, evalEvent_pass_iff, evalEvent_pass_iff]
  have ht : checkTime (mergeCfg a b) e = .pass ↔
      (checkTime a e = .pass ∧ checkTime b e = .pass) := by
    show checkTimeOpt (mergeOpt a.startTime b.startTime)
        (mergeOpt a.endTime b.endTime) e = .pass ↔
      (checkTimeOpt a.startTime a.endTime e = .pass ∧
       checkTimeOpt b.startTime b.endTime e = .pass)
    rcases h1 with h1 | h1 <;> rcases h2 with h2 | h2 <;> rw [h1, h2]
    · rw [mergeOpt_none_left, mergeOpt_none_left, checkTimeOpt_none_none]
      simp
    · rw [mergeOpt_none_left, mergeOpt_none_right, checkTimeOpt_split b.startTime a.endTime]
      rw [and_comm]
    · rw [mergeOpt_none_right, mergeOpt_none_left, checkTimeOpt_split a.startTime b.endTime]
    · rw [mergeOpt_none_right, mergeOpt_none_right, checkTimeOpt_none_none]
      simp
  have hl : checkLevel (mergeCfg a b) e = .pass ↔
      (checkLevel a e = .pass ∧ checkLevel b e = .pass) := by
    rcases h3 with h3 | h3 <;>
      simp [checkLevel, mergeCfg, h3, mergeOpt_none_left, mergeOpt_none_right,
            checkLevelOpt]
  have hm : checkMsg (mergeCfg a b) e = .pass ↔
      (checkMsg a e = .pass ∧ checkMsg b e = .pass) := by
    rcases h4 with h4 | h4 <;>
      simp [checkMsg, mergeCfg, h4, mergeOpt_none_left, mergeOpt_none_right,
            checkSearch]
  have htm : checkTemplate (mergeCfg a b) e = .pass ↔
      (checkTemplate a e = .pass ∧ checkTemplate b e = .pass) := by
    rcases h5 with h5 | h5 <;>
      simp [checkTemplate, mergeCfg, h5, mergeOpt_none_left, mergeOpt_none_right,
            checkSearch]
  have hx : checkException (mergeCfg a b) e = .pass ↔
      (checkException a e = .pass ∧ checkException b e = .pass) := by
    rcases h8 with h8 | h8 <;>
      simp [checkException, mergeCfg, h8, mergeOpt_none_left, mergeOpt_none_right,
            checkSearch]
  have hrd : checkRenderings (mergeCfg a b) e = .pass ↔
      (checkRenderings a e = .pass ∧ checkRenderings b e = .pass) := by
    rcases h9 with h9 | h9 <;>
      simp [checkRenderings, mergeCfg, h9, mergeOpt_none_left, mergeOpt_none_right,
            checkSearch]
  have hu : checkUserFields (mergeCfg a b) e = .pass ↔
      (checkUserFields a e = .pass ∧ checkUserFields b e = .pass) := by
    rcases h6 with h6 | h6 <;>
      simp [checkUserFields, mergeCfg, h6, mergeOpt_none_left, mergeOpt_none_right,
            checkUserFieldsOpt]
  have hi : checkEventId (mergeCfg a b) e = .pass ↔
      (checkEventId a e = .pass ∧ checkEventId b e = .pass) := by
    rcases h7 with h7 | h7 <;>
      simp [checkEventId, mergeCfg, h7, mergeOpt_none_left, mergeOpt_none_right,
            checkEventIdOpt]
  rw [ht, hl, hm, htm, hx, hrd, hu, hi]
  constructor
  · rintro ⟨⟨a1, b1⟩, ⟨a2, b2⟩, ⟨a3, b3⟩, ⟨a4, b4⟩, ⟨a5, b5⟩, ⟨a6, b6⟩, ⟨a7, b7⟩, a8, b8⟩
    exact ⟨⟨a1, a2, a3, a4, a5, a6, a7, a8⟩, b1, b2, b3, b4, b5, b6, b7, b8⟩
  · rintro ⟨⟨a1, a2, a3, a4, a5, a6, a7, a8⟩, b1, b2, b3, b4, b5, b6, b7, b8⟩
    exact ⟨⟨a1, b1⟩, ⟨a2, b2⟩, ⟨a3, b3⟩, ⟨a4, b4⟩, ⟨a5, b5⟩, ⟨a6, b6⟩, ⟨a7, b7⟩, a8, b8⟩

/-- C9 counterexample: with start-time `T2` and end-time `T1 < T2` — two
criteria each independently satisfiable on this source (each single filter
returns a non-empty collection) — the combined execution raises the
inverted-range `ClefFilterError` instead of returning the intersection of
the two single results. -/
theorem filter_and_composition_cex :
    filterExec (mergeCfg cfgStartOnly cfgEndOnly) [eventEarly, eventLate] =
      .error (.clefFilterError
        "start_time (2026-01-24T12:00:00Z) is after end_time (2026-01-24T10:00:00Z)") ∧
    filterExec cfgStartOnly [eventEarly, eventLate] = .ok ([eventLate], 0) ∧
    filterExec cfgEndOnly [eventEarly, eventLate] = .ok ([eventEarly], 0) := by
  refine ⟨?_, ?_, ?_⟩ <;> decide

/-- C9 amended: for two disjointly-configured criteria sets whose own and
combined range validations pass, the combined execution returns exactly the
events (in source order) that lie in both single results — AND-composition
as intersection, provided no configuration error fires. -/
theorem filter_and_composition_amended (a b : FilterConfig)
    (events : List ClefEvent)
    (hdisj : DisjointCfg a b)
    (hra : rangeCheck a = .ok ()) (hrb : rangeCheck b = .ok ())
    (hrab : rangeCheck (mergeCfg a b) = .ok ()) :
    ∃ nA nB n,
      filterExec a events =
        .ok (events.filter (fun e => evalEvent a e == Outcome.pass), nA) ∧
      filterExec b events =
        .ok (events.filter (fun e => evalEvent b e == Outcome.pass), nB) ∧
      filterExec (mergeCfg a b) events =
        .ok (events.filter (fun e =>
              decide (e ∈ events.filter (fun x => evalEvent a x == Outcome.pass)) &&
              decide (e ∈ events.filter (fun x => evalEvent b x == Outcome.pass))), n) := by
  refine ⟨events.countP (fun e => evalEvent a e == Outcome.skip),
          events.countP (fun e => evalEvent b e == Outcome.skip),
          events.countP (fun e => evalEvent (mergeCfg a b) e == Outcome.skip),
          ?_, ?_, ?_⟩
  · simp [filterExec, hra, filterLoop_eq]
  · simp [filterExec, hrb, filterLoop_eq]
  · have hcong : ∀ e ∈ events,
        (evalEvent (mergeCfg a b) e == Outcome.pass) =
          (decide (e ∈ events.filter (fun x => evalEvent a x == Outcome.pass)) &&
           decide (e ∈ events.filter (fun x => evalEvent b x == Outcome.pass))) := by
      intro e he
      have hiff := evalEvent_merge_pass a b e hdisj
      by_cases hA : evalEvent a e = Outcome.pass <;>
        by_cases hB : evalEvent b e = Outcome.pass
      · have hm : evalEvent (mergeCfg a b) e = Outcome.pass := hiff.mpr ⟨hA, hB⟩
        simp [hm, List.mem_filter, he, hA, hB]
      · have hm : evalEvent (mergeCfg a b) e ≠ Outcome.pass :=
          fun hh => hB (hiff.mp hh).2
        simp [List.mem_filter, he, hA, hB, hm]
      · have hm : evalEvent (mergeCfg a b) e ≠ Outcome.pass :=
          fun hh => hA (hiff.mp hh).1
        simp [List.mem_filter, he, hA, hB, hm]
      · have hm : evalEvent (mergeCfg a b) e ≠ Outcome.pass :=
          fun hh => hA (hiff.mp hh).1
        simp [List.mem_filter, he, hA, hB, hm]
    have hfc := List.filter_congr hcong
    simp only [filterExec, hrab, filterLoop_eq, hfc]

/-- C9 amended, witnessed at a concrete start-time plus level pair of
criteria. -/
theorem filter_and_composition_amended_witness :
    (DisjointCfg cfgStartOnly cfgLevelError ∧
     rangeCheck cfgStartOnly = .ok () ∧
     rangeCheck cfgLevelError = .ok () ∧
     rangeCheck (mergeCfg cfgStartOnly cfgLevelError) = .ok ()) ∧
    (∃ nA nB n,
      filterExec cfgStartOnly [eventErrorLevel, eventEarly] =
        .ok ([eventErrorLevel, eventEarly].filter
               (fun e => evalEvent cfgStartOnly e == Outcome.pass), nA) ∧
      filterExec cfgLevelError [eventErrorLevel, eventEarly] =
        .ok ([eventErrorLevel, eventEarly].filter
               (fun e => evalEvent cfgLevelError e == Outcome.pass), nB) ∧
      filterExec (mergeCfg cfgStartOnly cfgLevelError) [eventErrorLevel, eventEarly] =
        .ok ([eventErrorLevel, eventEarly].filter (fun e =>
              decide (e ∈ [eventErrorLevel, eventEarly].filter
                        (fun x => evalEvent cfgStartOnly x == Outcome.pass)) &&
              decide (e ∈ [eventErrorLevel, eventEarly].filter
                        (fun x => evalEvent cfgLevelError x == Outcome.pass))), n)) :=
  ⟨⟨⟨Or.inr rfl, Or.inl rfl, Or.inl rfl, Or.inl rfl, Or.inl rfl, Or.inl rfl,
     Or.inl rfl, Or.inl rfl, Or.inl rfl⟩, by decide, by decide, by decide⟩,
   filter_and_composition_amended cfgStartOnly cfgLevelError
     [eventErrorLevel, eventEarly]
     ⟨Or.inr rfl, Or.inl rfl, Or.inl rfl, Or.inl rfl, Or.inl rfl, Or.inl rfl,
      Or.inl rfl, Or.inl rfl, Or.inl rfl⟩ (by decide) (by decide) (by decide)⟩

end PyClef
